import Mathlib

/-!
# Verification of the achievement lookup service (src/app/api/achievement/route.ts)

This file gives a shallow embedding of the year-achievement lookup service and
its fetch client, and proves the specified properties about it:

* the JavaScript string primitives the route relies on (`parseInt`, `trim`,
  `String.prototype.split` with the route's separator regex, `JSON.parse`);
* the route handler `GET` with its year cache, modelled as a pure function
  from the request parameters, the cache, the clock, the environment and the
  upstream response to a response plus the updated cache;
* the text coercion `coerceToStringArray` / `normalizeItem`;
* the client component's effect/cleanup logic guarding against stale
  responses.
-/

/-! ## JavaScript whitespace, trim, parseInt -/

/-- The characters matched by JavaScript's whitespace class (used by
regex-class whitespace, `String.prototype.trim` and `parseInt` skipping). -/
def jsWsChars : List Char :=
  [' ', '\t', '\n', '\r', Char.ofNat 0x0b, Char.ofNat 0x0c,
   Char.ofNat 0xa0, Char.ofNat 0x1680, Char.ofNat 0x2000, Char.ofNat 0x2001,
   Char.ofNat 0x2002, Char.ofNat 0x2003, Char.ofNat 0x2004, Char.ofNat 0x2005,
   Char.ofNat 0x2006, Char.ofNat 0x2007, Char.ofNat 0x2008, Char.ofNat 0x2009,
   Char.ofNat 0x200a, Char.ofNat 0x2028, Char.ofNat 0x2029, Char.ofNat 0x202f,
   Char.ofNat 0x205f, Char.ofNat 0x3000, Char.ofNat 0xfeff]

/-- Whether a character is JavaScript whitespace. -/
def isJsWs (c : Char) : Bool := jsWsChars.contains c

/-- `String.prototype.trim`: strip JavaScript whitespace from both ends. -/
def jsTrim (s : String) : String :=
  String.mk (((s.data.dropWhile isJsWs).reverse.dropWhile isJsWs).reverse)

/-- Numeric value of a list of decimal digits. -/
def digitsToNat (ds : List Char) : Nat :=
  ds.foldl (fun a c => a * 10 + (c.toNat - 48)) 0

/-- A JavaScript number as `parseInt` can produce it: `NaN`, a signed
infinity, or a finite double (always integral for `parseInt`, so carried
as an exact integer). -/
inductive JsNumber where
  | nan
  | inf (neg : Bool)
  | finite (v : Int)
deriving DecidableEq, Repr

/-- Floor of the base-2 logarithm, with explicit fuel so that it reduces
by iteration; the fuel only has to exceed the logarithm itself. -/
def natLog2 : Nat → Nat → Nat
  | 0, _ => 0
  | f + 1, n => if 2 ≤ n then natLog2 f (n / 2) + 1 else 0

/-- Round a natural number to the nearest IEEE-754 binary64 value
(round half to even); `none` is overflow to `Infinity`, which happens
exactly for magnitudes of at least `2 ^ 1024 - 2 ^ 970` (about
`1.8e308`).  Values below `2 ^ 53` are exact.  Values of `2 ^ 1024` or
more always overflow, so the fuel `1100` covers every remaining
logarithm. -/
def roundNatToDouble (n : Nat) : Option Nat :=
  if n < 2 ^ 53 then some n
  else if 2 ^ 1024 ≤ n then none
  else
    let k := natLog2 1100 n
    let shift := k - 52
    let q := n / 2 ^ shift
    let r := n % 2 ^ shift
    let half := 2 ^ (shift - 1)
    let q2 := if half < r ∨ (r = half ∧ q % 2 = 1) then q + 1 else q
    let v := q2 * 2 ^ shift
    if v < 2 ^ 1024 then some v else none

/-- `Number.isFinite`: false exactly on `NaN` and the infinities. -/
def numberIsFinite : JsNumber → Bool
  | JsNumber.finite _ => true
  | _ => false

/-- `Number.parseInt(s, 10)`: skip leading whitespace, take an optional sign
and then the maximal run of decimal digits; no digits gives `NaN`, and the
digit value is converted to a double, overflowing to a signed infinity
beyond the double range.  Trailing garbage after the digits is ignored, as
in JavaScript. -/
def jsParseInt10 (s : String) : JsNumber :=
  let cs := s.data.dropWhile isJsWs
  let signed : Bool × List Char :=
    match cs with
    | '-' :: r => (true, r)
    | '+' :: r => (false, r)
    | _ => (false, cs)
  let ds := signed.2.takeWhile Char.isDigit
  if ds = [] then JsNumber.nan
  else
    match roundNatToDouble (digitsToNat ds) with
    | none => JsNumber.inf signed.1
    | some v => JsNumber.finite (if signed.1 then -(v : Int) else (v : Int))

/-! ## JSON.parse

A model of `JSON.parse` sufficient for the route: it parses the full JSON
grammar (strings with escapes, numbers, literals, arrays, objects) and is
strict about trailing garbage, like the JavaScript builtin.  Numeric and
object payloads are irrelevant to the route (it only keeps string elements of
arrays), so they are not retained in the parsed value. -/

/-- JSON insignificant whitespace (only these four, per RFC 8259). -/
def isJsonWs (c : Char) : Bool := c == ' ' || c == '\t' || c == '\n' || c == '\r'

/-- A parsed JSON value, with payloads kept only where the route uses them. -/
inductive JVal where
  | jnull
  | jbool (b : Bool)
  | jnum
  | jstr (s : String)
  | jarr (elems : List JVal)
  | jobj (fields : List (String × JVal))

/-- Value of a hexadecimal digit. -/
def hexVal (c : Char) : Option Nat :=
  if '0' ≤ c ∧ c ≤ '9' then some (c.toNat - 48)
  else if 'a' ≤ c ∧ c ≤ 'f' then some (c.toNat - 87)
  else if 'A' ≤ c ∧ c ≤ 'F' then some (c.toNat - 55)
  else none

/-- Parse the body of a JSON string (after the opening quote), handling the
escape sequences of RFC 8259 and rejecting raw control characters. -/
def parseJStr : Nat → List Char → List Char → Option (String × List Char)
  | 0, _, _ => none
  | _ + 1, [], _ => none
  | _ + 1, '"' :: rest, acc => some (String.mk acc.reverse, rest)
  | f + 1, '\\' :: rest, acc =>
    match rest with
    | [] => none
    | 'u' :: rest2 =>
      match rest2 with
      | a :: b :: c :: d :: rest3 =>
        match hexVal a, hexVal b, hexVal c, hexVal d with
        | some x1, some x2, some x3, some x4 =>
          parseJStr f rest3 (Char.ofNat (((x1 * 16 + x2) * 16 + x3) * 16 + x4) :: acc)
        | _, _, _, _ => none
      | _ => none
    | e :: rest2 =>
      if e = '"' then parseJStr f rest2 ('"' :: acc)
      else if e = '\\' then parseJStr f rest2 ('\\' :: acc)
      else if e = '/' then parseJStr f rest2 ('/' :: acc)
      else if e = 'b' then parseJStr f rest2 ('\x08' :: acc)
      else if e = 'f' then parseJStr f rest2 ('\x0c' :: acc)
      else if e = 'n' then parseJStr f rest2 ('\n' :: acc)
      else if e = 'r' then parseJStr f rest2 ('\r' :: acc)
      else if e = 't' then parseJStr f rest2 ('\t' :: acc)
      else none
  | f + 1, c :: rest, acc =>
    if c.toNat < 32 then none else parseJStr f rest (c :: acc)

/-- Parse a JSON number (sign, integer part, optional fraction and exponent).
The numeric value is not retained. -/
def parseJNum (cs : List Char) : Option (JVal × List Char) :=
  let cs1 := match cs with
    | c0 :: r => if c0 = '-' then r else cs
    | [] => cs
  match cs1 with
  | [] => none
  | c :: _ =>
    if ¬ c.isDigit then none
    else
      let intRest := if c = '0' then cs1.tail else cs1.dropWhile Char.isDigit
      let afterFrac :=
        match intRest with
        | '.' :: d :: fr => if d.isDigit then (d :: fr).dropWhile Char.isDigit else intRest
        | _ => intRest
      let afterExp :=
        match afterFrac with
        | e :: r2 =>
          if e = 'e' ∨ e = 'E' then
            let r3 := match r2 with
              | '+' :: r => r
              | '-' :: r => r
              | _ => r2
            match r3 with
            | d :: _ => if d.isDigit then r3.dropWhile Char.isDigit else afterFrac
            | [] => afterFrac
          else afterFrac
        | [] => afterFrac
      some (JVal.jnum, afterExp)

/-- Match an exact literal prefix. -/
def expectLit : List Char → List Char → Option (List Char)
  | [], cs => some cs
  | e :: es, c :: cs => if c = e then expectLit es cs else none
  | _ :: _, [] => none

mutual

/-- Parse one JSON value (after skipping leading whitespace). -/
def parseJVal : Nat → List Char → Option (JVal × List Char)
  | 0, _ => none
  | f + 1, cs =>
    match cs.dropWhile isJsonWs with
    | [] => none
    | c :: rest =>
      if c = '"' then
        match parseJStr f rest [] with
        | some (s, r) => some (JVal.jstr s, r)
        | none => none
      else if c = '[' then
        match (rest.dropWhile isJsonWs) with
        | ']' :: r => some (JVal.jarr [], r)
        | _ =>
          match parseJElems f rest with
          | some (vs, r) => some (JVal.jarr vs, r)
          | none => none
      else if c = '{' then
        match (rest.dropWhile isJsonWs) with
        | '}' :: r => some (JVal.jobj [], r)
        | _ =>
          match parseJFields f rest with
          | some (fs, r) => some (JVal.jobj fs, r)
          | none => none
      else if c = 't' then
        match expectLit ['r', 'u', 'e'] rest with
        | some r => some (JVal.jbool true, r)
        | none => none
      else if c = 'f' then
        match expectLit ['a', 'l', 's', 'e'] rest with
        | some r => some (JVal.jbool false, r)
        | none => none
      else if c = 'n' then
        match expectLit ['u', 'l', 'l'] rest with
        | some r => some (JVal.jnull, r)
        | none => none
      else parseJNum (c :: rest)

/-- Parse the elements of a non-empty JSON array (after the opening bracket). -/
def parseJElems : Nat → List Char → Option (List JVal × List Char)
  | 0, _ => none
  | f + 1, cs =>
    match parseJVal f cs with
    | none => none
    | some (v, r) =>
      match r.dropWhile isJsonWs with
      | ',' :: r2 =>
        match parseJElems f r2 with
        | some (vs, r3) => some (v :: vs, r3)
        | none => none
      | ']' :: r2 => some ([v], r2)
      | _ => none

/-- Parse the fields of a non-empty JSON object (after the opening brace). -/
def parseJFields : Nat → List Char → Option (List (String × JVal) × List Char)
  | 0, _ => none
  | f + 1, cs =>
    match cs.dropWhile isJsonWs with
    | '"' :: rest =>
      match parseJStr f rest [] with
      | none => none
      | some (k, r) =>
        match r.dropWhile isJsonWs with
        | ':' :: r2 =>
          match parseJVal f r2 with
          | none => none
          | some (v, r3) =>
            match r3.dropWhile isJsonWs with
            | ',' :: r4 =>
              match parseJFields f r4 with
              | some (fs, r5) => some ((k, v) :: fs, r5)
              | none => none
            | '}' :: r4 => some ([(k, v)], r4)
            | _ => none
        | _ => none
    | _ => none

end

/-- `JSON.parse`: parse one value and require only whitespace to remain. -/
def jsonParse (s : String) : Option JVal :=
  match parseJVal (2 * s.data.length + 8) s.data with
  | some (v, rest) => if rest.dropWhile isJsonWs = [] then some v else none
  | none => none

/-! ## Text coercion (coerceToStringArray / normalizeItem) -/

/-- Index of the last character satisfying `p`. -/
def lastIdx (p : Char → Bool) (cs : List Char) : Option Nat :=
  match cs.reverse.findIdx? p with
  | some k => some (cs.length - 1 - k)
  | none => none

/-- The match of the greedy regex over the text: from the first
opening bracket to the last closing bracket, provided the latter comes
strictly later. -/
def bracketMatch (s : String) : Option String :=
  match s.data.findIdx? (fun c => c = '['), lastIdx (fun c => c = ']') s.data with
  | some i, some j =>
    if i < j then some (String.mk ((s.data.drop i).take (j - i + 1))) else none
  | _, _ => none

/-- `normalizeItem`: strip a leading run of digits followed by a period, or
else a leading dash/bullet with any following whitespace, then trim. -/
def normalizeItem (s : String) : String :=
  let ds := s.data.takeWhile Char.isDigit
  let rest := s.data.dropWhile Char.isDigit
  if ds ≠ [] ∧ rest.head? = some '.' then jsTrim (String.mk rest.tail)
  else
    match s.data with
    | c :: r => if c = '-' ∨ c = '•' then jsTrim (String.mk (r.dropWhile isJsWs)) else jsTrim s
    | [] => jsTrim s

/-- Split a character list at every separator matched by the regex
CRLF-or-LF, a bullet, or a dash followed by at least one whitespace
character (the whitespace run is consumed greedily).  `acc` holds the
current fragment, reversed.  The fuel only bounds recursion; every step
consumes at least one character, so `length + 1` is always enough. -/
def splitParts : Nat → List Char → List Char → List String
  | 0, cs, acc => [String.mk (acc.reverse ++ cs)]
  | _ + 1, [], acc => [String.mk acc.reverse]
  | f + 1, c :: rest, acc =>
    if c = '\r' then
      match rest with
      | c2 :: rest2 =>
        if c2 = '\n' then String.mk acc.reverse :: splitParts f rest2 []
        else splitParts f rest (c :: acc)
      | [] => splitParts f rest (c :: acc)
    else if c = '\n' then String.mk acc.reverse :: splitParts f rest []
    else if c = '•' then String.mk acc.reverse :: splitParts f rest []
    else if c = '-' then
      match rest with
      | c2 :: _ =>
        if isJsWs c2 then String.mk acc.reverse :: splitParts f (rest.dropWhile isJsWs) []
        else splitParts f rest (c :: acc)
      | [] => splitParts f rest (c :: acc)
    else splitParts f rest (c :: acc)

/-- The fallback branch of `coerceToStringArray`: split by lines or bullets,
trim, drop empties, normalize, and keep at most 10 fragments. -/
def fallbackSplit (text : String) : List String :=
  (((((splitParts (text.data.length + 1) text.data []).map jsTrim).filter
      (fun s => s ≠ "")).map normalizeItem)).take 10

/-- Keep a JSON value only if it is a string (`typeof v === "string"`). -/
def jstrOnly : JVal → Option String
  | JVal.jstr s => some s
  | _ => none

/-- `JSON.parse` of the text when it yields an array, with only the string
elements kept; `none` when the parse fails or yields a non-array. -/
def jsonStringArray (s : String) : Option (List String) :=
  match jsonParse s with
  | some (JVal.jarr vs) => some (vs.filterMap jstrOnly)
  | _ => none

/-- `coerceToStringArray`: strict JSON parse first, then the first
bracket-delimited substring, then the line/bullet split fallback. -/
def coerceToStringArray (text : String) : List String :=
  match jsonStringArray text with
  | some ss => ss.map normalizeItem
  | none =>
    match bracketMatch text with
    | some sub =>
      match jsonStringArray sub with
      | some ss => ss.map normalizeItem
      | none => fallbackSplit text
    | none => fallbackSplit text

/-! ## The route handler GET -/

/-- A cache entry: write time (ms) and the cached items. -/
structure CachedYear where
  «at» : Nat
  items : List String
deriving DecidableEq, Repr

/-- The process-wide `YEAR_CACHE` map, as an association list keyed by the
parsed (integer) year. -/
abbrev YearCache := List (Int × CachedYear)

def CACHE_TTL_MS : Nat := 1000 * 60 * 60 * 24 * 7

/-- `YEAR_CACHE.get`. -/
def cacheGet (m : YearCache) (k : Int) : Option CachedYear :=
  (m.find? (fun p => p.1 == k)).map Prod.snd

/-- `YEAR_CACHE.set`: replace any entry with the same key. -/
def cacheSet (m : YearCache) (k : Int) (v : CachedYear) : YearCache :=
  (k, v) :: m.filter (fun p => p.1 != k)

/-- The upstream fetch, abstracted: a non-ok HTTP response with its body
text, or a successful response with the optional extracted
`candidates[0].content.parts[0].text` payload. -/
inductive UpstreamResult where
  | httpError (text : String)
  | success (rawText : Option String)
deriving DecidableEq, Repr

/-- A JSON response body: an error object or a year-with-items object. -/
inductive RespBody where
  | err (msg : String) (detail : Option String)
  | ok (year : Int) (items : List String)
deriving DecidableEq, Repr

/-- What one `GET` call produces: HTTP status, body, the cache after the
call, and whether the upstream API was called. -/
structure GetOutcome where
  status : Nat
  body : RespBody
  cache : YearCache
  upstreamCalled : Bool
deriving DecidableEq, Repr

/-- `force = forceParam === "1" || forceParam === "true"`. -/
def isForce (forceParam : Option String) : Bool :=
  forceParam == some "1" || forceParam == some "true"

/-- `!apiKey`: the environment variable is unset or the empty string. -/
def keyMissing (apiKey : Option String) : Bool :=
  apiKey == none || apiKey == some ""

/-- The part of `GET` after the cache-hit check: credential check, upstream
call, payload checks, coercion, truncation to 5, cache write. -/
def refreshPath (year : Int) (cache : YearCache) (now : Nat) (apiKey : Option String)
    (upstream : UpstreamResult) : GetOutcome :=
  if keyMissing apiKey then
    ⟨500, RespBody.err "Server missing GEMINI_API_KEY" none, cache, false⟩
  else
    match upstream with
    | UpstreamResult.httpError text =>
      ⟨502, RespBody.err "Upstream error" (some text), cache, true⟩
    | UpstreamResult.success rawText =>
      match rawText with
      | none => ⟨502, RespBody.err "No content returned" none, cache, true⟩
      | some raw =>
        if raw = "" then ⟨502, RespBody.err "No content returned" none, cache, true⟩
        else
          let items := (coerceToStringArray raw).take 5
          if items = [] then ⟨502, RespBody.err "Empty content" none, cache, true⟩
          else ⟨200, RespBody.ok year items, cacheSet cache year ⟨now, items⟩, true⟩

/-- The route handler: parse the year, reject it unless it is a finite
non-negative value (`!Number.isFinite(year) || year < 0`), consult the
cache unless `force`, otherwise refresh.  The `nan` and `inf` arms are the
`!Number.isFinite(year)` half of the check. -/
def GET (yearParam forceParam : Option String) (cache : YearCache) (now : Nat)
    (apiKey : Option String) (upstream : UpstreamResult) : GetOutcome :=
  match jsParseInt10 (yearParam.getD "") with
  | JsNumber.nan => ⟨400, RespBody.err "Invalid or missing year" none, cache, false⟩
  | JsNumber.inf _ => ⟨400, RespBody.err "Invalid or missing year" none, cache, false⟩
  | JsNumber.finite year =>
    if year < 0 then ⟨400, RespBody.err "Invalid or missing year" none, cache, false⟩
    else
      match cacheGet cache year with
      | some e =>
        if ¬ isForce forceParam = true ∧ now - e.«at» < CACHE_TTL_MS then
          ⟨200, RespBody.ok year e.items, cache, false⟩
        else refreshPath year cache now apiKey upstream
      | none => refreshPath year cache now apiKey upstream

/-! ## The fetch client (Achievement component)

Each run of the effect creates a fresh `isCurrent` flag and its cleanup
(run when `year` changes or the component unmounts) sets the previous
flag to false.  This is modelled with a token counter: a run bumps the
counter and the closure of a request issued by run `t` sees
`isCurrent = true` exactly when `t` is still the latest run. -/

inductive CStatus where
  | idle
  | loading
  | error
  | success
deriving DecidableEq, Repr

abbrev ClientCache := List (Nat × List String)

/-- `cacheRef.current.get`. -/
def ccGet (m : ClientCache) (k : Nat) : Option (List String) :=
  (m.find? (fun p => p.1 == k)).map Prod.snd

/-- `cacheRef.current.set`. -/
def ccSet (m : ClientCache) (k : Nat) (v : List String) : ClientCache :=
  (k, v) :: m.filter (fun p => p.1 != k)

/-- The client component state: displayed items, status, the client cache,
and the token of the latest effect run. -/
structure FetchClient where
  items : List String
  status : CStatus
  cache : ClientCache
  token : Nat
deriving DecidableEq, Repr

/-- The network outcome seen by one request: `res.ok` with the extracted
items (a non-array `items` field is coerced to `[]`), or a failure
(network error or non-ok status, both of which throw). -/
inductive FetchOutcome where
  | ok (items : List String)
  | fail
deriving DecidableEq, Repr

/-- One run of the effect for `year`: the previous run's cleanup fires
(token bump), then either the client cache answers synchronously with a
non-empty entry, or a request tagged with the new token is issued with the
state set to loading. -/
def effectRun (year : Nat) (s : FetchClient) : FetchClient × Option (Nat × Nat) :=
  let s1 : FetchClient := { s with token := s.token + 1 }
  match ccGet s1.cache year with
  | some cached =>
    if cached.length > 0 then
      ({ s1 with items := cached, status := CStatus.success }, none)
    else ({ s1 with status := CStatus.loading, items := [] }, some (s1.token, year))
  | none => ({ s1 with status := CStatus.loading, items := [] }, some (s1.token, year))

/-- Resolution of the request issued by run `tok` for `year`: the closure
first checks its `isCurrent` flag (`tok = s.token`) and discards the
response when it is stale; otherwise it stores the items in the client
cache and updates the display state (or only the status, on failure). -/
def resolveRun (tok year : Nat) (outcome : FetchOutcome) (s : FetchClient) : FetchClient :=
  if tok ≠ s.token then s
  else
    match outcome with
    | FetchOutcome.ok items =>
      { s with items := items, status := CStatus.success, cache := ccSet s.cache year items }
    | FetchOutcome.fail => { s with status := CStatus.error }

/-! ## Helper lemmas -/

lemma cacheGet_cacheSet_self (m : YearCache) (k : Int) (v : CachedYear) :
    cacheGet (cacheSet m k v) k = some v := by
  simp [cacheGet, cacheSet]

lemma cacheGet_cacheSet_ne (m : YearCache) (k k2 : Int) (v : CachedYear) (h : k2 ≠ k) :
    cacheGet (cacheSet m k v) k2 = cacheGet m k2 := by
  simp only [cacheGet, cacheSet, List.find?]
  have hbeq : (k == k2) = false := by
    exact beq_false_of_ne (fun hk => h hk.symm)
  simp only [hbeq]
  induction m with
  | nil => rfl
  | cons p rest ih =>
    by_cases hp : p.1 = k
    · have h1 : (p.1 != k) = false := by simp [hp]
      have h2 : (p.1 == k2) = false := by
        exact beq_false_of_ne (fun hk => h (hk.symm.trans hp))
      simp only [List.filter, h1, List.find?, h2] at ih ⊢
      exact ih
    · have h1 : (p.1 != k) = true := by simp [hp]
      simp only [List.filter, h1, List.find?]
      by_cases h2 : (p.1 == k2) = true
      · simp only [h2]
      · simp only [Bool.not_eq_true] at h2
        simp only [h2]
        exact ih

lemma GET_hit (yp fp : Option String) (cache : YearCache) (now : Nat)
    (key : Option String) (up : UpstreamResult) (y : Int) (e : CachedYear)
    (hy : jsParseInt10 (yp.getD "") = JsNumber.finite y) (hy0 : 0 ≤ y)
    (he : cacheGet cache y = some e) (hf : isForce fp = false)
    (hfresh : now - e.«at» < CACHE_TTL_MS) :
    GET yp fp cache now key up = ⟨200, RespBody.ok y e.items, cache, false⟩ := by
  unfold GET
  rw [hy]
  simp only [not_lt.mpr hy0, if_false, he, hf]
  simp [hfresh]

lemma GET_eq_refreshPath (yp fp : Option String) (cache : YearCache) (now : Nat)
    (key : Option String) (up : UpstreamResult) (y : Int)
    (hy : jsParseInt10 (yp.getD "") = JsNumber.finite y) (hy0 : 0 ≤ y)
    (href : isForce fp = true ∨
      ∀ e, cacheGet cache y = some e → CACHE_TTL_MS ≤ now - e.«at») :
    GET yp fp cache now key up = refreshPath y cache now key up := by
  unfold GET
  rw [hy]
  simp only [not_lt.mpr hy0, if_false]
  cases he : cacheGet cache y with
  | none => rfl
  | some e =>
    have hcond : ¬ (¬ isForce fp = true ∧ now - e.«at» < CACHE_TTL_MS) := by
      rcases href with hforce | hstale
      · simp [hforce]
      · have := hstale e he
        intro hc
        exact absurd hc.2 (not_lt.mpr this)
    show (if ¬ isForce fp = true ∧ now - e.«at» < CACHE_TTL_MS then
        (⟨200, RespBody.ok y e.items, cache, false⟩ : GetOutcome)
      else refreshPath y cache now key up) = refreshPath y cache now key up
    rw [if_neg hcond]

lemma effectRun_token (y : Nat) (s : FetchClient) :
    ((effectRun y s).1).token = s.token + 1 := by
  cases h : ccGet s.cache y with
  | none => simp [effectRun, h]
  | some cached =>
    by_cases hl : cached.length > 0 <;> simp [effectRun, h, hl]

lemma effectRun_request_token (y t yr : Nat) (s : FetchClient)
    (h : (effectRun y s).2 = some (t, yr)) : t = s.token + 1 := by
  cases hc : ccGet s.cache y with
  | none =>
    simp [effectRun, hc] at h
    exact h.1.symm
  | some cached =>
    by_cases hl : cached.length > 0
    · simp [effectRun, hc, hl] at h
    · simp [effectRun, hc, hl] at h
      exact h.1.symm

lemma resolveRun_stale (tok y : Nat) (o : FetchOutcome) (s : FetchClient)
    (h : tok ≠ s.token) : resolveRun tok y o s = s := by
  simp [resolveRun, h]

/-! ## The claims -/

/-- C2: the coercion tries, in order, a strict JSON-array parse (keeping
string elements, normalizing each), then the same on the first
bracket-delimited substring, then a line/bullet split; on the three
specified inputs it returns exactly the specified lists. -/
theorem C2_coercion_precedence :
    (∀ t ss, jsonStringArray t = some ss →
      coerceToStringArray t = ss.map normalizeItem) ∧
    (∀ t sub ss, jsonStringArray t = none → bracketMatch t = some sub →
      jsonStringArray sub = some ss →
      coerceToStringArray t = ss.map normalizeItem) ∧
    coerceToStringArray "[\"A\",\"B\"]" = ["A", "B"] ∧
    coerceToStringArray "Intro: [\"1. Landed on the moon\", \"- Cured a disease\"]" =
      ["Landed on the moon", "Cured a disease"] ∧
    coerceToStringArray "1. First\n2. Second\n3. Third" = ["First", "Second", "Third"] := by
  refine ⟨?_, ?_, by decide, by decide, by decide⟩
  · intro t ss h
    unfold coerceToStringArray
    simp only [h]
  · intro t sub ss h1 hb h2
    unfold coerceToStringArray
    simp only [h1, hb, h2]

/-- Witness for C2's path statements: the strict-parse path on the first
example input. -/
theorem C2_witness :
    coerceToStringArray "[\"A\",\"B\"]" = (["A", "B"].map normalizeItem) :=
  C2_coercion_precedence.1 "[\"A\",\"B\"]" ["A", "B"] (by decide)

/-- C9: a response that arrives after the requested year has changed is
discarded: it alters neither the displayed items, nor the status, nor the
client cache; and any resolution that changes the client state at all
carries the token of the latest request. -/
theorem C9_stale_response_discarded :
    (∀ (s : FetchClient) (y1 y2 t1 : Nat) (o : FetchOutcome),
      (effectRun y1 s).2 = some (t1, y1) →
      resolveRun t1 y1 o ((effectRun y2 (effectRun y1 s).1).1)
        = (effectRun y2 (effectRun y1 s).1).1) ∧
    (∀ (tok year : Nat) (o : FetchOutcome) (s : FetchClient),
      resolveRun tok year o s ≠ s → tok = s.token) := by
  constructor
  · intro s y1 y2 t1 o h
    have ht1 : t1 = s.token + 1 := effectRun_request_token y1 t1 y1 s h
    have ht2 : ((effectRun y2 (effectRun y1 s).1).1).token = s.token + 1 + 1 := by
      rw [effectRun_token, effectRun_token]
    apply resolveRun_stale
    rw [ht1, ht2]
    omega
  · intro tok year o s h
    by_contra hne
    exact h (resolveRun_stale tok year o s hne)

/-- Witness for C9 at a concrete state: a request for 1999 issued from the
initial state is discarded after the year changes to 2000. -/
theorem C9_witness :
    resolveRun 1 1999 (FetchOutcome.ok ["a"])
        ((effectRun 2000 (effectRun 1999 ⟨[], CStatus.idle, [], 0⟩).1).1)
      = (effectRun 2000 (effectRun 1999 ⟨[], CStatus.idle, [], 0⟩).1).1 :=
  C9_stale_response_discarded.1 ⟨[], CStatus.idle, [], 0⟩ 1999 2000 1
    (FetchOutcome.ok ["a"]) (by decide)

lemma refreshPath_success (y : Int) (cache : YearCache) (now : Nat)
    (key : Option String) (raw : String)
    (hkey : keyMissing key = false) (hraw : raw ≠ "")
    (hne : (coerceToStringArray raw).take 5 ≠ []) :
    refreshPath y cache now key (UpstreamResult.success (some raw)) =
      ⟨200, RespBody.ok y ((coerceToStringArray raw).take 5),
        cacheSet cache y ⟨now, (coerceToStringArray raw).take 5⟩, true⟩ := by
  simp [refreshPath, hkey, hraw, hne]

/-- C1: with a cache entry for `y` written less than 7 days ago and
`force` false, `GET` returns 200 with exactly the cached items, calls no
upstream, and leaves the cache unchanged; and a first successful request
for `y` writes the cache entry that such a second request then returns. -/
theorem C1_cache_hit_and_populate
    (yp fp fp2 : Option String) (cache : YearCache) (now now2 : Nat)
    (key key2 : Option String) (up up2 : UpstreamResult) (y : Int) (raw : String)
    (hy : jsParseInt10 (yp.getD "") = JsNumber.finite y) (hy0 : 0 ≤ y)
    (hf : isForce fp = false) (hf2 : isForce fp2 = false) :
    (∀ e : CachedYear, cacheGet cache y = some e → now - e.«at» < CACHE_TTL_MS →
      GET yp fp cache now key up = ⟨200, RespBody.ok y e.items, cache, false⟩) ∧
    (cacheGet cache y = none → keyMissing key = false → raw ≠ "" →
      (coerceToStringArray raw).take 5 ≠ [] →
      GET yp fp cache now key (UpstreamResult.success (some raw)) =
        ⟨200, RespBody.ok y ((coerceToStringArray raw).take 5),
          cacheSet cache y ⟨now, (coerceToStringArray raw).take 5⟩, true⟩ ∧
      (now2 - now < CACHE_TTL_MS →
        GET yp fp2 (cacheSet cache y ⟨now, (coerceToStringArray raw).take 5⟩) now2 key2 up2 =
          ⟨200, RespBody.ok y ((coerceToStringArray raw).take 5),
            cacheSet cache y ⟨now, (coerceToStringArray raw).take 5⟩, false⟩)) := by
  constructor
  · intro e he hfresh
    exact GET_hit yp fp cache now key up y e hy hy0 he hf hfresh
  · intro hmiss hkey hraw hne
    constructor
    · rw [GET_eq_refreshPath yp fp cache now key _ y hy hy0
        (Or.inr (fun e he => by rw [hmiss] at he; cases he))]
      exact refreshPath_success y cache now key raw hkey hraw hne
    · intro hfresh2
      exact GET_hit yp fp2 _ now2 key2 up2 y ⟨now, (coerceToStringArray raw).take 5⟩
        hy hy0 (cacheGet_cacheSet_self cache y _) hf2 hfresh2

/-- Witness for C1: a first request for 2020 on an empty cache populates
the entry that a second request then answers from, without upstream. -/
theorem C1_witness :
    GET (some "2020") none [] 5 (some "secret") (UpstreamResult.success (some "[\"A\"]")) =
      ⟨200, RespBody.ok 2020 ["A"], cacheSet [] 2020 ⟨5, ["A"]⟩, true⟩ ∧
    GET (some "2020") none (cacheSet [] 2020 ⟨5, ["A"]⟩) 6 none (UpstreamResult.httpError "x") =
      ⟨200, RespBody.ok 2020 ["A"], cacheSet [] 2020 ⟨5, ["A"]⟩, false⟩ := by
  have h := (C1_cache_hit_and_populate (some "2020") none none [] 5 6 (some "secret") none
    (UpstreamResult.httpError "x") (UpstreamResult.httpError "x") 2020 "[\"A\"]"
    (by decide) (by decide) (by decide) (by decide)).2
    (by decide) (by decide) (by decide) (by decide)
  exact ⟨h.1.trans (by decide), (h.2 (by decide)).trans (by decide)⟩

/-- C4: with `force` true, `GET` takes the refresh path for every upstream
outcome even when a non-expired cache entry exists, and on a successful
upstream call with a non-empty parse it overwrites the stored entry with
the fresh items. -/
theorem C4_force_bypasses_cache
    (yp fp : Option String) (cache : YearCache) (now : Nat) (key : Option String)
    (y : Int) (e : CachedYear) (raw : String)
    (hy : jsParseInt10 (yp.getD "") = JsNumber.finite y) (hy0 : 0 ≤ y)
    (hforce : isForce fp = true)
    (he : cacheGet cache y = some e) (hfresh : now - e.«at» < CACHE_TTL_MS)
    (hkey : keyMissing key = false) (hraw : raw ≠ "")
    (hne : (coerceToStringArray raw).take 5 ≠ []) :
    (∀ up : UpstreamResult, GET yp fp cache now key up = refreshPath y cache now key up) ∧
    GET yp fp cache now key (UpstreamResult.success (some raw)) =
      ⟨200, RespBody.ok y ((coerceToStringArray raw).take 5),
        cacheSet cache y ⟨now, (coerceToStringArray raw).take 5⟩, true⟩ ∧
    cacheGet (cacheSet cache y ⟨now, (coerceToStringArray raw).take 5⟩) y =
      some ⟨now, (coerceToStringArray raw).take 5⟩ := by
  refine ⟨fun up => GET_eq_refreshPath yp fp cache now key up y hy hy0 (Or.inl hforce), ?_, ?_⟩
  · rw [GET_eq_refreshPath yp fp cache now key _ y hy hy0 (Or.inl hforce)]
    exact refreshPath_success y cache now key raw hkey hraw hne
  · exact cacheGet_cacheSet_self cache y _

/-- Witness for C4: a forced request for 2020 with a fresh entry present
still calls upstream and overwrites the entry. -/
theorem C4_witness :
    GET (some "2020") (some "1") [((2020 : Int), (⟨0, ["old"]⟩ : CachedYear))] 1 (some "secret")
        (UpstreamResult.success (some "[\"new\"]")) =
      ⟨200, RespBody.ok 2020 ["new"],
        cacheSet [((2020 : Int), (⟨0, ["old"]⟩ : CachedYear))] 2020 ⟨1, ["new"]⟩, true⟩ := by
  have h := (C4_force_bypasses_cache (some "2020") (some "1")
    [((2020 : Int), (⟨0, ["old"]⟩ : CachedYear))] 1 (some "secret") 2020 ⟨0, ["old"]⟩
    "[\"new\"]" (by decide) (by decide) (by decide) (by decide) (by decide)
    (by decide) (by decide) (by decide)).2.1
  rw [h]
  decide

/-- C7: on the refresh path (forced, entry missing, or entry expired), an
unset `GEMINI_API_KEY` yields a 500 with the configuration error, with no
upstream call and the cache unchanged. -/
theorem C7_missing_key_on_refresh
    (yp fp : Option String) (cache : YearCache) (now : Nat) (up : UpstreamResult) (y : Int)
    (hy : jsParseInt10 (yp.getD "") = JsNumber.finite y) (hy0 : 0 ≤ y)
    (href : isForce fp = true ∨
      ∀ e, cacheGet cache y = some e → CACHE_TTL_MS ≤ now - e.«at») :
    GET yp fp cache now none up =
      ⟨500, RespBody.err "Server missing GEMINI_API_KEY" none, cache, false⟩ := by
  rw [GET_eq_refreshPath yp fp cache now none up y hy hy0 href]
  simp [refreshPath, keyMissing]

/-- Witness for C7: a cache miss for 1905 with no credential set. -/
theorem C7_witness :
    GET (some "1905") none [] 0 none (UpstreamResult.success (some "[\"A\"]")) =
      ⟨500, RespBody.err "Server missing GEMINI_API_KEY" none, [], false⟩ :=
  C7_missing_key_on_refresh (some "1905") none [] 0
    (UpstreamResult.success (some "[\"A\"]")) 1905 (by decide) (by decide)
    (Or.inr (fun e he => by simp [cacheGet] at he))

/-- C10: a non-expired cache entry with `force` false answers with 200 and
the cached items even when the credential is unset; in particular the
response is not the missing-credential 500, because the cache-hit check
precedes the credential check. -/
theorem C10_cache_hit_ignores_key
    (yp fp : Option String) (cache : YearCache) (now : Nat) (up : UpstreamResult)
    (y : Int) (e : CachedYear)
    (hy : jsParseInt10 (yp.getD "") = JsNumber.finite y) (hy0 : 0 ≤ y)
    (he : cacheGet cache y = some e) (hf : isForce fp = false)
    (hfresh : now - e.«at» < CACHE_TTL_MS) :
    GET yp fp cache now none up = ⟨200, RespBody.ok y e.items, cache, false⟩ ∧
    (GET yp fp cache now none up).status ≠ 500 := by
  have h := GET_hit yp fp cache now none up y e hy hy0 he hf hfresh
  exact ⟨h, by rw [h]; simp⟩

/-- Witness for C10: a fresh entry for 2001 is served with the credential
unset. -/
theorem C10_witness :
    GET (some "2001") none [((2001 : Int), (⟨3, ["x"]⟩ : CachedYear))] 4 none
        (UpstreamResult.httpError "down") =
      ⟨200, RespBody.ok 2001 ["x"], [((2001 : Int), (⟨3, ["x"]⟩ : CachedYear))], false⟩ :=
  (C10_cache_hit_ignores_key (some "2001") none [((2001 : Int), (⟨3, ["x"]⟩ : CachedYear))] 4
    (UpstreamResult.httpError "down") 2001 ⟨3, ["x"]⟩
    (by decide) (by decide) (by decide) (by decide) (by decide)).1

/-! ## The cache invariant (C3) -/

/-- Every entry of the server cache holds between 1 and 5 items. -/
def cacheOK (m : YearCache) : Prop :=
  ∀ y e, cacheGet m y = some e → 1 ≤ e.items.length ∧ e.items.length ≤ 5

lemma cacheOK_nil : cacheOK [] := by
  intro y e h
  simp [cacheGet] at h

lemma take5_bounds (l : List String) (h : l.take 5 ≠ []) :
    1 ≤ (l.take 5).length ∧ (l.take 5).length ≤ 5 := by
  constructor
  · exact List.length_pos.mpr h
  · rw [List.length_take]
    exact Nat.min_le_left 5 l.length

lemma cacheOK_set (m : YearCache) (k : Int) (v : CachedYear) (hOK : cacheOK m)
    (hv : 1 ≤ v.items.length ∧ v.items.length ≤ 5) : cacheOK (cacheSet m k v) := by
  intro y e h
  by_cases hy : y = k
  · subst hy
    rw [cacheGet_cacheSet_self] at h
    injection h with h
    subst h
    exact hv
  · rw [cacheGet_cacheSet_ne m k y v hy] at h
    exact hOK y e h

lemma refreshPath_ok (y : Int) (cache : YearCache) (now : Nat) (key : Option String)
    (up : UpstreamResult) (hOK : cacheOK cache) :
    cacheOK (refreshPath y cache now key up).cache ∧
    (∀ y2 items, (refreshPath y cache now key up).body = RespBody.ok y2 items →
      1 ≤ items.length ∧ items.length ≤ 5) := by
  by_cases hk : keyMissing key = true
  · simp only [refreshPath, hk, if_true]
    exact ⟨hOK, fun y2 items h => by cases h⟩
  · simp only [refreshPath, hk, Bool.false_eq_true, if_false]
    cases up with
    | httpError text => exact ⟨hOK, fun y2 items h => by cases h⟩
    | success rawText =>
      cases rawText with
      | none => exact ⟨hOK, fun y2 items h => by cases h⟩
      | some raw =>
        by_cases hraw : raw = ""
        · simp only [hraw, if_true]
          exact ⟨hOK, fun y2 items h => by cases h⟩
        · simp only [hraw, if_false]
          by_cases hne : (coerceToStringArray raw).take 5 = []
          · simp only [hne, if_true]
            exact ⟨hOK, fun y2 items h => by cases h⟩
          · simp only [hne, if_false]
            refine ⟨cacheOK_set cache y _ hOK (take5_bounds _ hne), ?_⟩
            intro y2 items h
            injection h with h1 h2
            subst h2
            exact take5_bounds _ hne

/-- C3: the empty cache satisfies the invariant; every `GET` preserves it;
and every 200 response body carries between 1 and 5 items. -/
theorem C3_items_bounds :
    cacheOK [] ∧
    ∀ (yp fp : Option String) (cache : YearCache) (now : Nat) (key : Option String)
      (up : UpstreamResult), cacheOK cache →
      cacheOK (GET yp fp cache now key up).cache ∧
      ∀ y items, (GET yp fp cache now key up).body = RespBody.ok y items →
        1 ≤ items.length ∧ items.length ≤ 5 := by
  refine ⟨cacheOK_nil, ?_⟩
  intro yp fp cache now key up hOK
  unfold GET
  cases hy : jsParseInt10 (yp.getD "") with
  | nan => exact ⟨hOK, fun y items h => by cases h⟩
  | inf b => exact ⟨hOK, fun y items h => by cases h⟩
  | finite year =>
    by_cases hneg : year < 0
    · simp only [hneg, if_true]
      exact ⟨hOK, fun y items h => by cases h⟩
    · simp only [hneg, if_false]
      cases he : cacheGet cache year with
      | none => exact refreshPath_ok year cache now key up hOK
      | some e =>
        by_cases hcond : ¬ isForce fp = true ∧ now - e.«at» < CACHE_TTL_MS
        · simp only [hcond, if_true]
          refine ⟨hOK, ?_⟩
          intro y items h
          injection h with h1 h2
          subst h2
          exact hOK year e he
        · simp only [hcond, if_false]
          exact refreshPath_ok year cache now key up hOK

/-- Witness for C3 at a concrete request: the invariant holds after a
successful refresh for year 5 on the empty cache, and the response items
are bounded. -/
theorem C3_witness :
    cacheOK (GET (some "5") none [] 0 (some "k")
      (UpstreamResult.success (some "[\"A\"]"))).cache ∧
    ∀ y items, (GET (some "5") none [] 0 (some "k")
        (UpstreamResult.success (some "[\"A\"]"))).body = RespBody.ok y items →
      1 ≤ items.length ∧ items.length ≤ 5 :=
  C3_items_bounds.2 (some "5") none [] 0 (some "k")
    (UpstreamResult.success (some "[\"A\"]")) C3_items_bounds.1

/-! ## The fallback cap (C8) -/

lemma fallbackSplit_le_ten (t : String) : (fallbackSplit t).length ≤ 10 := by
  unfold fallbackSplit
  rw [List.length_take]
  exact Nat.min_le_left _ _

/-- C8: whenever neither JSON-array path applies, the coercion is the
line/bullet fallback and returns at most 10 fragments; the JSON paths are
not capped at 10, as an 11-element JSON array shows; the later response
truncation to 5 is separate (the route applies `take 5` afterwards). -/
theorem C8_fallback_capped_at_ten :
    (∀ t : String, jsonStringArray t = none →
      (∀ sub, bracketMatch t = some sub → jsonStringArray sub = none) →
      coerceToStringArray t = fallbackSplit t ∧ (coerceToStringArray t).length ≤ 10) ∧
    coerceToStringArray "[\"a\",\"b\",\"c\",\"d\",\"e\",\"f\",\"g\",\"h\",\"i\",\"j\",\"k\"]" =
      ["a", "b", "c", "d", "e", "f", "g", "h", "i", "j", "k"] ∧
    (coerceToStringArray "[\"a\",\"b\",\"c\",\"d\",\"e\",\"f\",\"g\",\"h\",\"i\",\"j\",\"k\"]").length
      = 11 := by
  refine ⟨?_, by decide, by decide⟩
  intro t h1 h2
  have hc : coerceToStringArray t = fallbackSplit t := by
    unfold coerceToStringArray
    cases hb : bracketMatch t with
    | none => simp only [h1, hb]
    | some sub => simp only [h1, hb, h2 sub hb]
  exact ⟨hc, hc ▸ fallbackSplit_le_ten t⟩

/-- Witness for C8 on a text with no JSON array anywhere. -/
theorem C8_witness :
    coerceToStringArray "1. First\n2. Second\n3. Third"
        = fallbackSplit "1. First\n2. Second\n3. Third" ∧
    (coerceToStringArray "1. First\n2. Second\n3. Third").length ≤ 10 :=
  C8_fallback_capped_at_ten.1 "1. First\n2. Second\n3. Third" (by decide)
    (fun sub h => by
      rw [show bracketMatch "1. First\n2. Second\n3. Third" = none from by decide] at h
      cases h)

/-! ## Year validation (C5) -/

lemma refreshPath_status_ne_400 (y : Int) (cache : YearCache) (now : Nat)
    (key : Option String) (up : UpstreamResult) :
    (refreshPath y cache now key up).status ≠ 400 := by
  by_cases hk : keyMissing key = true
  · simp [refreshPath, hk]
  · simp only [refreshPath, hk, Bool.false_eq_true, if_false]
    cases up with
    | httpError text => simp
    | success rawText =>
      cases rawText with
      | none => simp
      | some raw =>
        by_cases hraw : raw = ""
        · simp [hraw]
        · simp only [hraw, if_false]
          by_cases hne : (coerceToStringArray raw).take 5 = [] <;> simp [hne]

/-- C5 as stated is false: the year parameter `3.5` does not denote a
finite non-negative integer, yet the route accepts it (parseInt keeps the
integer prefix 3), calls upstream, and answers 200 rather than 400. -/
theorem C5_counterexample :
    (GET (some "3.5") none [] 0 (some "k")
      (UpstreamResult.success (some "[\"A\"]"))).status = 200 ∧
    (GET (some "3.5") none [] 0 (some "k")
      (UpstreamResult.success (some "[\"A\"]"))).status ≠ 400 ∧
    (GET (some "3.5") none [] 0 (some "k")
      (UpstreamResult.success (some "[\"A\"]"))).upstreamCalled = true :=
  ⟨by decide, by decide, by decide⟩

/-- C5 (amended): the route answers 400 `Invalid or missing year` — with
no upstream call and the cache unchanged — exactly when JavaScript
`parseInt(yearParam ?? "", 10)` fails `Number.isFinite` (NaN from a
missing parameter or no leading integer prefix, or a signed infinity from
a numeral beyond the double range, i.e. 309 digits or more) or yields a
negative value; parameters with extra trailing text such as `3.5` or
`12abc` are accepted as their integer prefix. -/
theorem C5_invalid_year_400
    (yp fp : Option String) (cache : YearCache) (now : Nat) (key : Option String)
    (up : UpstreamResult) :
    ((numberIsFinite (jsParseInt10 (yp.getD "")) = false ∨
        (∃ n, jsParseInt10 (yp.getD "") = JsNumber.finite n ∧ n < 0)) →
      GET yp fp cache now key up =
        ⟨400, RespBody.err "Invalid or missing year" none, cache, false⟩) ∧
    ((GET yp fp cache now key up).status = 400 →
      numberIsFinite (jsParseInt10 (yp.getD "")) = false ∨
        (∃ n, jsParseInt10 (yp.getD "") = JsNumber.finite n ∧ n < 0)) := by
  constructor
  · rintro (hnf | ⟨n, hn, hneg⟩)
    · unfold GET
      cases hy : jsParseInt10 (yp.getD "") with
      | nan => rfl
      | inf b => rfl
      | finite n =>
        rw [hy] at hnf
        simp [numberIsFinite] at hnf
    · unfold GET
      rw [hn]
      simp [hneg]
  · intro h400
    cases hy : jsParseInt10 (yp.getD "") with
    | nan => exact Or.inl rfl
    | inf b => exact Or.inl rfl
    | finite n =>
      by_cases hneg : n < 0
      · exact Or.inr ⟨n, rfl, hneg⟩
      · exfalso
        unfold GET at h400
        rw [hy] at h400
        simp only [hneg, if_false] at h400
        cases he : cacheGet cache n with
        | none =>
          rw [he] at h400
          exact refreshPath_status_ne_400 n cache now key up h400
        | some e =>
          rw [he] at h400
          by_cases hcond : ¬ isForce fp = true ∧ now - e.«at» < CACHE_TTL_MS
          · simp only [hcond, if_true] at h400
            simp at h400
          · simp only [hcond, if_false] at h400
            exact refreshPath_status_ne_400 n cache now key up h400

set_option maxRecDepth 8192 in
set_option exponentiation.threshold 2048 in
/-- Witness for C5 (amended) at concrete inputs: a negative year parameter
is rejected, and so is a 310-digit year parameter, whose parse overflows
to Infinity and fails the finiteness check. -/
theorem C5_witness :
    GET (some "-3") none [] 0 (some "k") (UpstreamResult.success (some "[\"A\"]")) =
      ⟨400, RespBody.err "Invalid or missing year" none, [], false⟩ ∧
    GET (some ("1" ++ String.mk (List.replicate 309 '0'))) none [] 0 (some "k")
        (UpstreamResult.success (some "[\"A\"]")) =
      ⟨400, RespBody.err "Invalid or missing year" none, [], false⟩ :=
  ⟨(C5_invalid_year_400 (some "-3") none [] 0 (some "k")
      (UpstreamResult.success (some "[\"A\"]"))).1
      (Or.inr ⟨-3, by decide, by decide⟩),
    (C5_invalid_year_400 (some ("1" ++ String.mk (List.replicate 309 '0'))) none [] 0
      (some "k") (UpstreamResult.success (some "[\"A\"]"))).1
      (Or.inl (by decide))⟩

/-! ## Whitespace-only payloads (C6)

An empty payload is falsy and is reported as `No content returned`; a
whitespace-only payload is truthy, survives to the coercion, and every
coercion path yields nothing from it, so it is reported as
`Empty content`.  The lemmas below show that the coercion of a
whitespace-only string is empty. -/

lemma mem_jsWsChars_of_isJsWs {c : Char} (h : isJsWs c = true) : c ∈ jsWsChars := by
  simpa [isJsWs] using h

lemma jsWs_char_facts :
    ∀ c ∈ jsWsChars, c ≠ '"' ∧ c ≠ '[' ∧ c ≠ '{' ∧ c ≠ 't' ∧ c ≠ 'f' ∧
      c ≠ 'n' ∧ c ≠ '-' ∧ c ≠ '•' ∧ c.isDigit = false := by decide

lemma parseJNum_not_num {c : Char} (rest : List Char) (hdash : c ≠ '-')
    (hdig : c.isDigit = false) : parseJNum (c :: rest) = none := by
  simp [parseJNum, hdash, hdig]

lemma parseJVal_ws (f : Nat) (cs : List Char) (h : ∀ c ∈ cs, isJsWs c = true) :
    parseJVal f cs = none := by
  cases f with
  | zero => rfl
  | succ f =>
    cases hd : cs.dropWhile isJsonWs with
    | nil => simp [parseJVal, hd]
    | cons c rest =>
      have hc : c ∈ cs := by
        have hm : c ∈ cs.dropWhile isJsonWs := by rw [hd]; exact List.mem_cons_self c rest
        exact (List.dropWhile_suffix isJsonWs).sublist.subset hm
      obtain ⟨h1, h2, h3, h4, h5, h6, h7, h8, h9⟩ :=
        jsWs_char_facts c (mem_jsWsChars_of_isJsWs (h c hc))
      simp [parseJVal, hd, h1, h2, h3, h4, h5, h6, parseJNum_not_num rest h7 h9]

lemma jsonParse_ws (s : String) (h : ∀ c ∈ s.data, isJsWs c = true) :
    jsonParse s = none := by
  simp [jsonParse, parseJVal_ws _ s.data h]

lemma jsonStringArray_ws (s : String) (h : ∀ c ∈ s.data, isJsWs c = true) :
    jsonStringArray s = none := by
  simp [jsonStringArray, jsonParse_ws s h]

lemma bracketMatch_ws (s : String) (h : ∀ c ∈ s.data, isJsWs c = true) :
    bracketMatch s = none := by
  have hfi : s.data.findIdx? (fun c => c = '[') = none := by
    rw [List.findIdx?_eq_none_iff]
    intro c hc
    have := (jsWs_char_facts c (mem_jsWsChars_of_isJsWs (h c hc))).2.1
    simp [this]
  simp [bracketMatch, hfi]

lemma splitParts_ws (f : Nat) (cs acc : List Char)
    (hcs : ∀ c ∈ cs, isJsWs c = true) (hacc : ∀ c ∈ acc, isJsWs c = true) :
    ∀ frag ∈ splitParts f cs acc, ∀ c ∈ frag.data, isJsWs c = true := by
  induction f generalizing cs acc with
  | zero =>
    intro frag hf c hc
    simp only [splitParts, List.mem_singleton] at hf
    subst hf
    rcases List.mem_append.mp hc with hmem | hmem
    · exact hacc c (List.mem_reverse.mp hmem)
    · exact hcs c hmem
  | succ f ih =>
    intro frag hf c hc
    cases cs with
    | nil =>
      simp only [splitParts, List.mem_singleton] at hf
      subst hf
      exact hacc c (List.mem_reverse.mp hc)
    | cons c0 rest =>
      have hc0 := hcs c0 (List.mem_cons_self _ _)
      have hrest : ∀ x ∈ rest, isJsWs x = true :=
        fun x hx => hcs x (List.mem_cons_of_mem _ hx)
      have hcons : ∀ x ∈ c0 :: acc, isJsWs x = true := by
        intro x hx
        rcases List.mem_cons.mp hx with rfl | hx
        · exact hc0
        · exact hacc x hx
      obtain ⟨f1, f2, f3, f4, f5, f6, f7, f8, f9⟩ :=
        jsWs_char_facts c0 (mem_jsWsChars_of_isJsWs hc0)
      by_cases h1 : c0 = '\r'
      · subst h1
        cases rest with
        | nil =>
          simp [splitParts] at hf
          exact ih [] ('\r' :: acc) (by simp) hcons frag hf c hc
        | cons c2 rest2 =>
          have hrest2 : ∀ x ∈ rest2, isJsWs x = true :=
            fun x hx => hrest x (List.mem_cons_of_mem _ hx)
          by_cases h2 : c2 = '\n'
          · subst h2
            simp [splitParts] at hf
            rcases hf with rfl | hf
            · exact hacc c (List.mem_reverse.mp hc)
            · exact ih rest2 [] hrest2 (by simp) frag hf c hc
          · simp [splitParts, h2] at hf
            exact ih (c2 :: rest2) ('\r' :: acc) hrest hcons frag hf c hc
      · by_cases h2 : c0 = '\n'
        · subst h2
          simp [splitParts, h1] at hf
          rcases hf with rfl | hf
          · exact hacc c (List.mem_reverse.mp hc)
          · exact ih rest [] hrest (by simp) frag hf c hc
        · simp [splitParts, h1, h2, f7, f8] at hf
          exact ih rest (c0 :: acc) hrest hcons frag hf c hc

lemma jsTrim_ws (s : String) (h : ∀ c ∈ s.data, isJsWs c = true) : jsTrim s = "" := by
  unfold jsTrim
  rw [List.dropWhile_eq_nil_iff.mpr h]
  rfl

lemma fallbackSplit_ws (t : String) (h : ∀ c ∈ t.data, isJsWs c = true) :
    fallbackSplit t = [] := by
  unfold fallbackSplit
  have hfil : ((splitParts (t.data.length + 1) t.data []).map jsTrim).filter
      (fun s => s ≠ "") = [] := by
    rw [List.filter_eq_nil_iff]
    intro a ha
    rw [List.mem_map] at ha
    obtain ⟨frag, hfrag, rfl⟩ := ha
    have hws := splitParts_ws (t.data.length + 1) t.data [] h (by simp) frag hfrag
    simp [jsTrim_ws frag hws]
  rw [hfil]
  rfl

lemma coerceToStringArray_ws (t : String) (h : ∀ c ∈ t.data, isJsWs c = true) :
    coerceToStringArray t = [] := by
  unfold coerceToStringArray
  simp only [jsonStringArray_ws t h, bracketMatch_ws t h]
  exact fallbackSplit_ws t h

/-- C6 as stated is false on whitespace-only payloads: a payload of a
single space yields a 502 whose error is `Empty content`, not
`No content returned`. -/
theorem C6_counterexample :
    (GET (some "2000") none [] 0 (some "k")
      (UpstreamResult.success (some " "))).status = 502 ∧
    (GET (some "2000") none [] 0 (some "k")
      (UpstreamResult.success (some " "))).body = RespBody.err "Empty content" none ∧
    (GET (some "2000") none [] 0 (some "k")
      (UpstreamResult.success (some " "))).body ≠ RespBody.err "No content returned" none ∧
    (GET (some "2000") none [] 0 (some "k")
      (UpstreamResult.success (some " "))).cache = [] :=
  ⟨by decide, by decide, by decide, by decide⟩

/-- C6 (amended): on the refresh path with the credential set, a missing or
empty upstream payload yields 502 `No content returned`, a non-empty
whitespace-only payload yields 502 `Empty content`, and in both cases the
cache is left unchanged. -/
theorem C6_empty_payload_502
    (yp fp : Option String) (cache : YearCache) (now : Nat) (key : Option String) (y : Int)
    (hy : jsParseInt10 (yp.getD "") = JsNumber.finite y) (hy0 : 0 ≤ y)
    (href : isForce fp = true ∨
      ∀ e, cacheGet cache y = some e → CACHE_TTL_MS ≤ now - e.«at»)
    (hkey : keyMissing key = false) :
    (∀ r : Option String, (r = none ∨ r = some "") →
      GET yp fp cache now key (UpstreamResult.success r) =
        ⟨502, RespBody.err "No content returned" none, cache, true⟩) ∧
    (∀ s : String, s ≠ "" → (∀ c ∈ s.data, isJsWs c = true) →
      GET yp fp cache now key (UpstreamResult.success (some s)) =
        ⟨502, RespBody.err "Empty content" none, cache, true⟩) := by
  constructor
  · rintro r (rfl | rfl) <;>
      rw [GET_eq_refreshPath yp fp cache now key _ y hy hy0 href] <;>
      simp [refreshPath, hkey]
  · intro s hne hws
    rw [GET_eq_refreshPath yp fp cache now key _ y hy hy0 href]
    have hempty : (coerceToStringArray s).take 5 = [] := by
      rw [coerceToStringArray_ws s hws]
      rfl
    simp [refreshPath, hkey, hne, hempty]

/-- Witness for C6 (amended) on concrete requests: year 2000, empty cache,
credential set, payloads `none` and a single space. -/
theorem C6_witness :
    GET (some "2000") none [] 0 (some "k") (UpstreamResult.success none) =
      ⟨502, RespBody.err "No content returned" none, [], true⟩ ∧
    GET (some "2000") none [] 0 (some "k") (UpstreamResult.success (some " ")) =
      ⟨502, RespBody.err "Empty content" none, [], true⟩ := by
  have h := C6_empty_payload_502 (some "2000") none [] 0 (some "k") 2000
    (by decide) (by decide)
    (Or.inr (fun e he => by simp [cacheGet] at he)) (by decide)
  exact ⟨h.1 none (Or.inl rfl), h.2 " " (by decide) (by decide)⟩
